import Mathlib

/-!
Shallow embedding of the Stroop "Color Match Challenge" game (src/script.js).

The source is a single-threaded, event-driven JS class `ColorMatchGame`.
We model:
* the persisted high-score encoding/decoding (`Number.prototype.toString`,
  `parseInt`, and the `savedHighScore ? parseInt(savedHighScore) : 0` load),
  with JS `NaN` represented as `none : Option Int`;
* the game state machine: state fields of the class plus an explicit record
  of the pending `setTimeout` callbacks (the per-round countdown stored in
  `this.gameTimer`, and the anonymous post-resolution delays that schedule
  `startNewRound` after 1000 ms and `endGame` after 1500 ms);
* randomness as an explicit stream `Nat → Fin 4` of draws
  (`Math.floor(Math.random() * 4)` always lies in `[0,4)`), consumed at a
  cursor `randPos`; the `do … while` rejection loop of `generateRoundData`
  is the first differing draw, found with `Nat.find`.

Scores are JS numbers that the code only sets to 0 or increments by 10, so
`Nat` models `currentScore` exactly; `highScore` is an `Int` (any non-NaN
load result, including negative values `parseInt` can produce).
Purely visual effects (CSS classes, animations, sounds, the timer bar, the
feedback auto-hide, button enable/disable) are not part of the state; note
that keyboard input reaches `handleColorClick` regardless of the buttons'
disabled attribute, so a `colorClick` event is possible whenever the
corresponding guard inside the handler allows it.
-/

namespace Stroop

/-! ### Decimal printing: model of `Number.prototype.toString` for integers -/

/-- The character for a decimal digit `d < 10` (source: JS number printing). -/
def decChar (d : Nat) : Char :=
  match d with
  | 0 => '0' | 1 => '1' | 2 => '2' | 3 => '3' | 4 => '4'
  | 5 => '5' | 6 => '6' | 7 => '7' | 8 => '8' | _ => '9'

/-- Fueled most-significant-first decimal printer; `fuel > n` suffices. -/
def natDecimalAux : Nat → Nat → List Char
  | 0, _ => []
  | fuel + 1, n =>
    if n < 10 then [decChar n]
    else natDecimalAux fuel (n / 10) ++ [decChar (n % 10)]

/-- Decimal digit string of a natural number, as `n.toString()` produces. -/
def natDecimal (n : Nat) : List Char := natDecimalAux (n + 1) n

/-- Drop trailing `'0'` digits (the significand digits JS prints in
exponential notation). -/
def stripTrailingZeros (l : List Char) : List Char :=
  (l.reverse.dropWhile (fun c => c == '0')).reverse

/-- `10 ^ 21`, the magnitude at which JS `Number.prototype.toString`
switches from plain decimal to exponential notation
(`(1e21).toString() === "1e+21"`). -/
def expThreshold : Nat := 1000000000000000000000

/-- Exponential form `d.dd…e+k` used by JS `toString` for values
`≥ 1e21`: significant digits with trailing zeros stripped, a dot when more
than one digit remains, then `e+` and the decimal exponent.  JS prints the
shortest digits that round-trip the double; this coincides with the exact
digits when those are already shortest (e.g. `10^21 → "1e+21"`), which
covers every value the theorems below evaluate. -/
def expForm (n : Nat) : String :=
  let ds := natDecimal n
  let sig := stripTrailingZeros ds
  let mantissa : List Char :=
    match sig with
    | [] => ['0']
    | [c] => [c]
    | c :: rest => c :: '.' :: rest
  String.mk (mantissa ++ ('e' :: '+' :: natDecimal (ds.length - 1)))

/-- `n.toString()` for a non-negative integer-valued JS number: plain
decimal digits below `1e21`, exponential notation from `1e21` on.  Real JS
prints the shortest decimal that round-trips the double, which is the exact
decimal expansion for every integer below `2^53` (the range the round-trip
theorem quantifies over). -/
def natToString (n : Nat) : String :=
  if n < expThreshold then String.mk (natDecimal n) else expForm n

/-- `i.toString()` for an integer-valued JS number (`"-"` prefix when
negative). -/
def intToString (i : Int) : String :=
  if i < 0 then String.mk ('-' :: (natToString i.natAbs).data)
  else natToString i.toNat

/-! ### Model of `parseInt` (ECMAScript, radix argument omitted) -/

/-- JS whitespace skipped by `parseInt` (ASCII part; the game never stores
exotic Unicode spaces). -/
def jsWhitespace (c : Char) : Bool :=
  c.toNat = 32 || c.toNat = 9 || c.toNat = 10 || c.toNat = 13 ||
  c.toNat = 11 || c.toNat = 12

/-- Value of `c` as a digit in the given radix (`0-9`, `a-z`, `A-Z`),
`none` if `c` is not a digit of that radix. -/
def digitVal (base : Nat) (c : Char) : Option Nat :=
  if 48 ≤ c.toNat ∧ c.toNat ≤ 57 ∧ c.toNat - 48 < base then some (c.toNat - 48)
  else if 97 ≤ c.toNat ∧ c.toNat ≤ 122 ∧ c.toNat - 87 < base then some (c.toNat - 87)
  else if 65 ≤ c.toNat ∧ c.toNat ≤ 90 ∧ c.toNat - 55 < base then some (c.toNat - 55)
  else none

/-- Accumulate the value of the longest digit prefix (how `parseInt` reads
digits, stopping at the first non-digit). -/
def parseAcc (base : Nat) : List Char → Nat → Nat
  | [], acc => acc
  | c :: cs, acc =>
    match digitVal base c with
    | some d => parseAcc base cs (acc * base + d)
    | none => acc

/-- Strip an optional sign, returning the sign factor and the rest. -/
def splitSign (cs : List Char) : Int × List Char :=
  match cs with
  | [] => (1, [])
  | c :: rest =>
    if c = '-' then (-1, rest)
    else if c = '+' then (1, rest)
    else (1, c :: rest)

/-- Strip an optional `0x`/`0X` prefix, returning the radix and the rest. -/
def splitHexPrefix (cs : List Char) : Nat × List Char :=
  match cs with
  | c0 :: c1 :: rest =>
    if c0 = '0' ∧ (c1 = 'x' ∨ c1 = 'X') then (16, rest) else (10, c0 :: c1 :: rest)
  | _ => (10, cs)

/-- `parseInt(s)`: skip whitespace, optional sign, optional hex prefix, then
the longest digit prefix; `none` models the JS result `NaN` (no digits). -/
def jsParseInt (s : String) : Option Int :=
  let cs := (s.data.dropWhile jsWhitespace)
  let sp := splitSign cs
  let bp := splitHexPrefix sp.2
  match bp.2 with
  | [] => none
  | c :: _ =>
    if (digitVal bp.1 c).isSome then some (sp.1 * (parseAcc bp.1 bp.2 0 : Int))
    else none

/-- `loadHighScore` (script.js lines 106-110):
`savedHighScore ? parseInt(savedHighScore) : 0`.  The stored value is falsy
exactly when it is absent (`null`) or the empty string.  The result is a JS
number, possibly `NaN` (`none`). -/
def loadHighScore (saved : Option String) : Option Int :=
  match saved with
  | none => some 0
  | some s => if s = "" then some 0 else jsParseInt s

/-- `saveHighScore` (script.js lines 115-117): the new content stored under
the key is `this.highScore.toString()`. -/
def saveHighScore (hs : Int) : Option String := some (intToString hs)

/-! ### Palette -/

/-- `this.colors` (script.js line 18). -/
def colors : List String := ["red", "blue", "green", "yellow"]

/-- `this.colorNames` (script.js line 19). -/
def colorNames : List String := ["RED", "BLUE", "GREEN", "YELLOW"]

/-- Indexing into `this.colors`. -/
def colorAt (i : Fin 4) : String := colors.get ⟨i.val, i.isLt⟩

/-- Indexing into `this.colorNames`. -/
def colorNameAt (i : Fin 4) : String := colorNames.get ⟨i.val, i.isLt⟩

/-! ### Random draws and round generation -/

/-- A stream of draws of `Math.floor(Math.random() * 4)`.  `StreamOK` says
every suffix of the stream contains a value different from any given one;
for genuinely uniform draws this holds with probability 1, and it is exactly
what the `do … while` rejection loop needs to finish. -/
def StreamOK (stream : Nat → Fin 4) : Prop :=
  ∀ pos : Nat, ∀ w : Fin 4, ∃ k : Nat, stream (pos + k) ≠ w

/-- Result of `generateRoundData`: the two drawn indices and where the
random cursor ends up. -/
structure RoundGen where
  wordIndex : Fin 4
  fontColorIndex : Fin 4
  nextPos : Nat
  deriving Repr, DecidableEq

/-- `generateRoundData` (script.js lines 172-185): draw `wordIndex`, then
redraw `fontColorIndex` (`do … while (fontColorIndex === wordIndex)`) until
it differs; the loop stops at the first differing draw. -/
def generateRoundData (stream : Nat → Fin 4) (hst : StreamOK stream) (pos : Nat) :
    RoundGen :=
  let wordIndex := stream pos
  let k := Nat.find (hst (pos + 1) wordIndex)
  { wordIndex := wordIndex
    fontColorIndex := stream (pos + 1 + k)
    nextPos := pos + 1 + k + 1 }

/-! ### Game state -/

/-- `this.minTimeLimit` (script.js line 14). -/
def minTimeLimit : Nat := 800

/-- `this.timeDecrement` (script.js line 15). -/
def timeDecrement : Nat := 100

/-- Delay before `startNewRound` after a correct answer (script.js line 279). -/
def nextRoundDelay : Nat := 1000

/-- Delay before `endGame` after a wrong answer or timeout
(script.js lines 299 and 318). -/
def endGameDelay : Nat := 1500

/-- The mutable fields of `ColorMatchGame`, plus an explicit record of the
pending `setTimeout` callbacks and of the persisted store. -/
structure GameState where
  isPlaying : Bool
  currentScore : Nat
  currentTimeLimit : Nat
  highScore : Int
  currentWord : String
  currentFontColor : String
  correctAnswer : String
  /-- cursor into the random stream -/
  randPos : Nat
  /-- the countdown whose handle is held in `this.gameTimer` -/
  countdownPending : Bool
  /-- countdowns still pending whose handle was overwritten in
  `this.gameTimer` and hence can no longer be cancelled -/
  orphanCountdowns : Nat
  /-- delays of pending anonymous `setTimeout(() => startNewRound(), 1000)` -/
  pendingNextRound : List Nat
  /-- delays of pending anonymous `setTimeout(() => endGame(), 1500)` -/
  pendingEndGame : List Nat
  /-- whether the game-over screen is shown -/
  gameOverVisible : Bool
  feedbackMessage : String
  /-- content of `localStorage` under `colorMatchHighScore` -/
  storedValue : Option String
  /-- whether the "new high score" message is shown -/
  newHighScoreShown : Bool
  deriving Repr, DecidableEq

/-- `startTimer` (script.js lines 222-237): `this.gameTimer = setTimeout(…)`.
If a countdown was already pending under `this.gameTimer`, its handle is
overwritten and it becomes an uncancellable orphan. -/
def startTimer (g : GameState) : GameState :=
  { g with
    orphanCountdowns := g.orphanCountdowns + (if g.countdownPending then 1 else 0)
    countdownPending := true }

/-- `startNewRound` (script.js lines 153-167). -/
def startNewRound (stream : Nat → Fin 4) (hst : StreamOK stream) (g : GameState) :
    GameState :=
  if g.isPlaying then
    let r := generateRoundData stream hst g.randPos
    startTimer
      { g with
        currentWord := colorNameAt r.wordIndex
        currentFontColor := colorAt r.fontColorIndex
        correctAnswer := colorAt r.fontColorIndex
        randPos := r.nextPos }
  else g

/-- `startGame` (script.js lines 136-148). -/
def startGame (stream : Nat → Fin 4) (hst : StreamOK stream) (g : GameState) :
    GameState :=
  startNewRound stream hst
    { g with
      isPlaying := true
      currentScore := 0
      currentTimeLimit := 3000
      gameOverVisible := false }

/-- `handleCorrectAnswer` (script.js lines 262-280). -/
def handleCorrectAnswer (g : GameState) : GameState :=
  { g with
    currentScore := g.currentScore + 10
    feedbackMessage := "Correct!"
    currentTimeLimit := max minTimeLimit (g.currentTimeLimit - timeDecrement)
    pendingNextRound := nextRoundDelay :: g.pendingNextRound }

/-- `handleIncorrectAnswer` (script.js lines 285-300). -/
def handleIncorrectAnswer (g : GameState) : GameState :=
  { g with
    feedbackMessage := "Wrong!"
    pendingEndGame := endGameDelay :: g.pendingEndGame }

/-- `handleTimeUp` (script.js lines 305-319). -/
def handleTimeUp (g : GameState) : GameState :=
  { g with
    feedbackMessage := "Time\x27s Up!"
    pendingEndGame := endGameDelay :: g.pendingEndGame }

/-- `handleColorClick` (script.js lines 242-257): guarded only by
`isPlaying`; clears the tracked countdown, then resolves the answer. -/
def handleColorClick (selectedColor : String) (g : GameState) : GameState :=
  if g.isPlaying then
    let g1 := { g with countdownPending := false }
    if selectedColor = g1.correctAnswer then handleCorrectAnswer g1
    else handleIncorrectAnswer g1
  else g

/-- `endGame` (script.js lines 353-373), including `showGameOverScreen`. -/
def endGame (g : GameState) : GameState :=
  let g1 := { g with isPlaying := false, countdownPending := false }
  if (g1.currentScore : Int) > g1.highScore then
    let g2 := { g1 with highScore := (g1.currentScore : Int) }
    { g2 with
      storedValue := saveHighScore g2.highScore
      gameOverVisible := true
      newHighScoreShown := true }
  else
    { g1 with gameOverVisible := true, newHighScoreShown := false }

/-- `exitGame` (script.js lines 393-417): guarded by `isPlaying`; clears only
the countdown handle held in `this.gameTimer` — the anonymous post-resolution
delays are untracked and stay pending. -/
def exitGame (g : GameState) : GameState :=
  if g.isPlaying then
    { g with
      isPlaying := false
      countdownPending := false
      currentWord := "READY?"
      currentFontColor := "#333"
      currentScore := 0
      feedbackMessage := "Game Exited" }
  else g

/-- `returnToMainMenu` (script.js lines 422-438). -/
def returnToMainMenu (g : GameState) : GameState :=
  { g with
    gameOverVisible := false
    currentWord := "READY?"
    currentFontColor := "#333"
    currentScore := 0
    isPlaying := false }

/-- `restartGame` (script.js lines 443-446). -/
def restartGame (stream : Nat → Fin 4) (hst : StreamOK stream) (g : GameState) :
    GameState :=
  startGame stream hst { g with gameOverVisible := false }

/-- External triggers: user inputs and expirations of pending timers. -/
inductive Event where
  /-- the start button (`startGame` has no state guard of its own) -/
  | startClick
  /-- a color button or its key binding, by palette index -/
  | colorClick (c : Fin 4)
  | exitClick
  | menuClick
  | restartClick
  /-- the countdown tracked in `this.gameTimer` expires -/
  | countdownFires
  /-- an orphaned (untracked) countdown expires -/
  | orphanCountdownFires
  /-- a pending 1000 ms `startNewRound` delay expires -/
  | nextRoundFires
  /-- a pending 1500 ms `endGame` delay expires -/
  | endGameFires
  deriving Repr, DecidableEq

/-- One dispatch of the single-threaded event loop.  A timer event on a
state with no such timer pending cannot occur and is the identity. -/
def step (stream : Nat → Fin 4) (hst : StreamOK stream) (e : Event)
    (g : GameState) : GameState :=
  match e with
  | .startClick => startGame stream hst g
  | .colorClick c => handleColorClick (colorAt c) g
  | .exitClick => exitGame g
  | .menuClick => returnToMainMenu g
  | .restartClick => restartGame stream hst g
  | .countdownFires =>
    if g.countdownPending then handleTimeUp { g with countdownPending := false }
    else g
  | .orphanCountdownFires =>
    if 0 < g.orphanCountdowns then
      handleTimeUp { g with orphanCountdowns := g.orphanCountdowns - 1 }
    else g
  | .nextRoundFires =>
    match g.pendingNextRound with
    | [] => g
    | _ :: rest => startNewRound stream hst { g with pendingNextRound := rest }
  | .endGameFires =>
    match g.pendingEndGame with
    | [] => g
    | _ :: rest => endGame { g with pendingEndGame := rest }

/-- The state after the constructor ran: `h0` is the high score produced by
`loadHighScore` (any non-NaN value; `sv` the store content). -/
def initState (h0 : Int) (sv : Option String) : GameState :=
  { isPlaying := false
    currentScore := 0
    currentTimeLimit := 3000
    highScore := h0
    currentWord := ""
    currentFontColor := ""
    correctAnswer := ""
    randPos := 0
    countdownPending := false
    orphanCountdowns := 0
    pendingNextRound := []
    pendingEndGame := []
    gameOverVisible := false
    feedbackMessage := ""
    storedValue := sv
    newHighScoreShown := false }

/-- States reachable by the event loop from the freshly constructed game. -/
inductive Reachable (stream : Nat → Fin 4) (hst : StreamOK stream) (h0 : Int)
    (sv : Option String) : GameState → Prop
  | init : Reachable stream hst h0 sv (initState h0 sv)
  | next {g : GameState} (e : Event) :
      Reachable stream hst h0 sv g →
      Reachable stream hst h0 sv (step stream hst e g)

/-! ### A concrete admissible draw stream, for witnesses and traces -/

/-- The stream cycling `0, 1, 2, 3`. -/
def mod4 : Nat → Fin 4 := fun k => ⟨k % 4, by omega⟩

/-- The state right after pressing start on a fresh game fed by `mod4`:
the word is RED (index 0), rendered in blue (index 1), so blue is the sole
correct answer; the countdown is pending and the cursor sits at 2. -/
def demoRound : GameState :=
  { isPlaying := true
    currentScore := 0
    currentTimeLimit := 3000
    highScore := 0
    currentWord := "RED"
    currentFontColor := "blue"
    correctAnswer := "blue"
    randPos := 2
    countdownPending := true
    orphanCountdowns := 0
    pendingNextRound := []
    pendingEndGame := []
    gameOverVisible := false
    feedbackMessage := ""
    storedValue := none
    newHighScoreShown := false }

/-- A fresh state that has accumulated one correct answer worth of score. -/
def demoScored : GameState := { initState 0 none with currentScore := 10 }

theorem mod4_ok : StreamOK mod4 := by
  intro pos w
  rcases eq_or_ne (mod4 (pos + 1)) w with h | h
  · refine ⟨2, fun hc => ?_⟩
    have h1 : (pos + 2) % 4 = w.val := congrArg Fin.val hc
    have h2 : (pos + 1) % 4 = w.val := congrArg Fin.val h
    omega
  · exact ⟨1, h⟩

/-- When the very first redraw already differs from the word index, the
rejection loop stops immediately. -/
theorem generateRoundData_quick (stream : Nat → Fin 4) (hst : StreamOK stream)
    (pos : Nat) (h1 : stream (pos + 1) ≠ stream pos) :
    generateRoundData stream hst pos =
      { wordIndex := stream pos, fontColorIndex := stream (pos + 1),
        nextPos := pos + 2 } := by
  have hk : Nat.find (hst (pos + 1) (stream pos)) = 0 := by
    rw [Nat.find_eq_zero]
    simpa using h1
  simp only [generateRoundData, hk]

/-! ### Facts about decimal digits and `parseInt` -/

theorem decChar_digitVal (d : Nat) (hd : d < 10) : digitVal 10 (decChar d) = some d := by
  interval_cases d <;> decide

theorem digitVal10_isSome {c : Char} (h : (digitVal 10 c).isSome) :
    48 ≤ c.toNat ∧ c.toNat ≤ 57 := by
  unfold digitVal at h
  split_ifs at h with h1 h2 h3
  · exact ⟨h1.1, h1.2.1⟩
  · exact absurd h2 (by omega)
  · exact absurd h3 (by omega)
  · simp at h

theorem digit_char_props {c : Char} (h : (digitVal 10 c).isSome) :
    jsWhitespace c = false ∧ c ≠ '-' ∧ c ≠ '+' ∧ c ≠ 'x' ∧ c ≠ 'X' := by
  obtain ⟨h1, h2⟩ := digitVal10_isSome h
  refine ⟨?_, ?_, ?_, ?_, ?_⟩
  · simp only [jsWhitespace, Bool.or_eq_false_iff, decide_eq_false_iff_not]
    omega
  · rintro rfl; exact absurd h1 (by decide)
  · rintro rfl; exact absurd h1 (by decide)
  · rintro rfl; exact absurd h2 (by decide)
  · rintro rfl; exact absurd h2 (by decide)

theorem parseAcc_append_digits (l rest : List Char) (a : Nat)
    (hl : ∀ c ∈ l, (digitVal 10 c).isSome) :
    parseAcc 10 (l ++ rest) a = parseAcc 10 rest (parseAcc 10 l a) := by
  induction l generalizing a with
  | nil => rfl
  | cons c l ih =>
    have hc : (digitVal 10 c).isSome := hl c (List.mem_cons_self c l)
    obtain ⟨d, hd⟩ := Option.isSome_iff_exists.mp hc
    simp only [List.cons_append, parseAcc, hd]
    exact ih _ (fun x hx => hl x (List.mem_cons_of_mem c hx))

/-- Correctness of the fueled decimal printer: every character is a decimal
digit, parsing it back yields the number, and it starts with a digit. -/
theorem natDecimalAux_spec (fuel : Nat) :
    ∀ n, n < fuel →
      (∀ c ∈ natDecimalAux fuel n, (digitVal 10 c).isSome) ∧
      parseAcc 10 (natDecimalAux fuel n) 0 = n ∧
      ∃ d rest, d < 10 ∧ natDecimalAux fuel n = decChar d :: rest := by
  induction fuel with
  | zero => intro n hn; omega
  | succ fuel ih =>
    intro n hn
    by_cases h10 : n < 10
    · refine ⟨?_, ?_, n, [], h10, ?_⟩
      · intro c hc
        simp only [natDecimalAux, if_pos h10, List.mem_singleton] at hc
        subst hc
        simp [decChar_digitVal n h10]
      · simp [natDecimalAux, if_pos h10, parseAcc, decChar_digitVal n h10]
      · simp [natDecimalAux, if_pos h10]
    · have hrec : n / 10 < fuel := by omega
      obtain ⟨ihd, ihv, d, rest, hdlt, hshape⟩ := ih (n / 10) hrec
      have hmod : n % 10 < 10 := by omega
      have hlast : (digitVal 10 (decChar (n % 10))).isSome := by
        simp [decChar_digitVal (n % 10) hmod]
      refine ⟨?_, ?_, d, rest ++ [decChar (n % 10)], hdlt, ?_⟩
      · intro c hc
        simp only [natDecimalAux, if_neg h10, List.mem_append,
          List.mem_singleton] at hc
        rcases hc with hc | hc
        · exact ihd c hc
        · subst hc; exact hlast
      · rw [show natDecimalAux (fuel + 1) n
            = natDecimalAux fuel (n / 10) ++ [decChar (n % 10)] by
              simp [natDecimalAux, if_neg h10]]
        rw [parseAcc_append_digits _ _ _ ihd, ihv]
        simp only [parseAcc, decChar_digitVal (n % 10) hmod]
        omega
      · rw [show natDecimalAux (fuel + 1) n
            = natDecimalAux fuel (n / 10) ++ [decChar (n % 10)] by
              simp [natDecimalAux, if_neg h10]]
        rw [hshape]
        simp

/-- Parsing the canonical decimal string of `n` recovers `n` exactly. -/
theorem jsParseInt_natDecimal (n : Nat) :
    jsParseInt (String.mk (natDecimal n)) = some (n : Int) := by
  obtain ⟨hdig, hval, d, rest, hd10, hshape⟩ :=
    natDecimalAux_spec (n + 1) n (by omega)
  have hdig' : ∀ c ∈ natDecimal n, (digitVal 10 c).isSome := hdig
  have hshape' : natDecimal n = decChar d :: rest := hshape
  have hhead : (digitVal 10 (decChar d)).isSome := by
    simp [decChar_digitVal d hd10]
  obtain ⟨hws, hminus, hplus, _, _⟩ := digit_char_props hhead
  have hdrop : (String.mk (natDecimal n)).data.dropWhile jsWhitespace
      = natDecimal n := by
    show (natDecimal n).dropWhile jsWhitespace = natDecimal n
    rw [hshape', List.dropWhile_cons, hws]
    simp
  have hsign : splitSign (natDecimal n) = (1, natDecimal n) := by
    rw [hshape']
    simp only [splitSign, if_neg hminus, if_neg hplus]
  have hhex : splitHexPrefix (natDecimal n) = (10, natDecimal n) := by
    rw [hshape']
    match hr : rest with
    | [] => rfl
    | c1 :: rest2 =>
      have hc1dig : (digitVal 10 c1).isSome := by
        apply hdig'
        rw [hshape']
        exact List.mem_cons_of_mem _ (List.mem_cons_self _ _)
      obtain ⟨_, _, _, hx, hX⟩ := digit_char_props hc1dig
      simp only [splitHexPrefix]
      rw [if_neg]
      rintro ⟨-, hc | hc⟩
      · exact hx hc
      · exact hX hc
  simp only [jsParseInt, hdrop, hsign, hhex]
  rw [hshape']
  simp only [← hshape', if_pos hhead]
  have hval' : parseAcc 10 (natDecimal n) 0 = n := hval
  simp [hval']

/-! ### Per-event case analyses of the machine -/

/-- How one event dispatch can change `currentScore`: it is unchanged, or
incremented by exactly 10 by a correct answer, or reset to 0 by
start / exit / menu / restart. -/
theorem step_score_cases (stream : Nat → Fin 4) (hst : StreamOK stream)
    (e : Event) (g : GameState) :
    (step stream hst e g).currentScore = g.currentScore ∨
    ((step stream hst e g).currentScore = g.currentScore + 10 ∧
      ∃ c : Fin 4, e = Event.colorClick c ∧ g.isPlaying = true ∧
        colorAt c = g.correctAnswer) ∨
    ((step stream hst e g).currentScore = 0 ∧
      (e = Event.startClick ∨ e = Event.exitClick ∨ e = Event.menuClick ∨
        e = Event.restartClick)) := by
  cases e with
  | startClick =>
    right; right
    exact ⟨by simp [step, startGame, startNewRound, startTimer], Or.inl rfl⟩
  | colorClick c =>
    by_cases hp : g.isPlaying = true
    · by_cases hc : colorAt c = g.correctAnswer
      · right; left
        refine ⟨?_, c, rfl, hp, hc⟩
        simp [step, handleColorClick, hp, hc, handleCorrectAnswer]
      · left
        simp [step, handleColorClick, hp, hc, handleIncorrectAnswer]
    · left
      simp [step, handleColorClick, hp]
  | exitClick =>
    by_cases hp : g.isPlaying = true
    · right; right
      exact ⟨by simp [step, exitGame, hp], by simp⟩
    · left
      simp [step, exitGame, hp]
  | menuClick =>
    right; right
    exact ⟨by simp [step, returnToMainMenu], by simp⟩
  | restartClick =>
    right; right
    exact ⟨by simp [step, restartGame, startGame, startNewRound, startTimer],
      by simp⟩
  | countdownFires =>
    left
    by_cases hcd : g.countdownPending = true <;> simp [step, hcd, handleTimeUp]
  | orphanCountdownFires =>
    left
    by_cases hor : 0 < g.orphanCountdowns <;> simp [step, hor, handleTimeUp]
  | nextRoundFires =>
    left
    cases hpn : g.pendingNextRound with
    | nil => simp [step, hpn]
    | cons a rest =>
      by_cases hp : g.isPlaying = true <;>
        simp [step, hpn, startNewRound, startTimer, hp]
  | endGameFires =>
    left
    cases hpe : g.pendingEndGame with
    | nil => simp [step, hpe]
    | cons a rest =>
      simp only [step, hpe, endGame]
      split_ifs <;> simp

/-- How one event dispatch can change `currentTimeLimit`: unchanged, reset
to 3000 by start/restart, or updated by the correct-answer decay formula. -/
theorem step_limit_cases (stream : Nat → Fin 4) (hst : StreamOK stream)
    (e : Event) (g : GameState) :
    (step stream hst e g).currentTimeLimit = g.currentTimeLimit ∨
    ((step stream hst e g).currentTimeLimit = 3000 ∧
      (e = Event.startClick ∨ e = Event.restartClick)) ∨
    ((step stream hst e g).currentTimeLimit
        = max minTimeLimit (g.currentTimeLimit - timeDecrement) ∧
      ∃ c : Fin 4, e = Event.colorClick c ∧ g.isPlaying = true ∧
        colorAt c = g.correctAnswer) := by
  cases e with
  | startClick =>
    right; left
    exact ⟨by simp [step, startGame, startNewRound, startTimer], Or.inl rfl⟩
  | colorClick c =>
    by_cases hp : g.isPlaying = true
    · by_cases hc : colorAt c = g.correctAnswer
      · right; right
        refine ⟨?_, c, rfl, hp, hc⟩
        simp [step, handleColorClick, hp, hc, handleCorrectAnswer]
      · left
        simp [step, handleColorClick, hp, hc, handleIncorrectAnswer]
    · left
      simp [step, handleColorClick, hp]
  | exitClick =>
    left
    by_cases hp : g.isPlaying = true <;> simp [step, exitGame, hp]
  | menuClick =>
    left
    simp [step, returnToMainMenu]
  | restartClick =>
    right; left
    exact ⟨by simp [step, restartGame, startGame, startNewRound, startTimer],
      Or.inr rfl⟩
  | countdownFires =>
    left
    by_cases hcd : g.countdownPending = true <;> simp [step, hcd, handleTimeUp]
  | orphanCountdownFires =>
    left
    by_cases hor : 0 < g.orphanCountdowns <;> simp [step, hor, handleTimeUp]
  | nextRoundFires =>
    left
    cases hpn : g.pendingNextRound with
    | nil => simp [step, hpn]
    | cons a rest =>
      by_cases hp : g.isPlaying = true <;>
        simp [step, hpn, startNewRound, startTimer, hp]
  | endGameFires =>
    left
    cases hpe : g.pendingEndGame with
    | nil => simp [step, hpe]
    | cons a rest =>
      simp only [step, hpe, endGame]
      split_ifs <;> simp

/-- No event dispatch ever lowers `highScore`; only `endGame` raises it. -/
theorem step_highScore_mono (stream : Nat → Fin 4) (hst : StreamOK stream)
    (e : Event) (g : GameState) :
    g.highScore ≤ (step stream hst e g).highScore := by
  cases e with
  | startClick => simp [step, startGame, startNewRound, startTimer]
  | colorClick c =>
    by_cases hp : g.isPlaying = true
    · by_cases hc : colorAt c = g.correctAnswer <;>
        simp [step, handleColorClick, hp, hc, handleCorrectAnswer,
          handleIncorrectAnswer]
    · simp [step, handleColorClick, hp]
  | exitClick => by_cases hp : g.isPlaying = true <;> simp [step, exitGame, hp]
  | menuClick => simp [step, returnToMainMenu]
  | restartClick => simp [step, restartGame, startGame, startNewRound, startTimer]
  | countdownFires =>
    by_cases hcd : g.countdownPending = true <;> simp [step, hcd, handleTimeUp]
  | orphanCountdownFires =>
    by_cases hor : 0 < g.orphanCountdowns <;> simp [step, hor, handleTimeUp]
  | nextRoundFires =>
    cases hpn : g.pendingNextRound with
    | nil => simp [step, hpn]
    | cons a rest =>
      by_cases hp : g.isPlaying = true <;>
        simp [step, hpn, startNewRound, startTimer, hp]
  | endGameFires =>
    cases hpe : g.pendingEndGame with
    | nil => simp [step, hpe]
    | cons a rest =>
      simp only [step, hpe, endGame]
      split_ifs with hgt
      · simp
        omega
      · simp

/-- Iterating the correct-answer handler applies the decay formula `n`
times: the limit is `max 800 (t - 100 n)`. -/
theorem handleCorrectAnswer_iterate (n : Nat) (g : GameState)
    (hg : minTimeLimit ≤ g.currentTimeLimit) :
    (handleCorrectAnswer^[n] g).currentTimeLimit
      = max minTimeLimit (g.currentTimeLimit - timeDecrement * n) := by
  induction n with
  | zero =>
    simp only [Function.iterate_zero, id_eq, Nat.mul_zero, Nat.sub_zero]
    simp only [minTimeLimit] at hg ⊢
    omega
  | succ n ih =>
    rw [Function.iterate_succ_apply']
    simp only [handleCorrectAnswer]
    rw [ih]
    simp only [minTimeLimit, timeDecrement] at hg ⊢
    omega

/-! ### Evaluating the demo trace -/

theorem demoStart_eq :
    step mod4 mod4_ok Event.startClick (initState 0 none) = demoRound := by
  have hq : generateRoundData mod4 mod4_ok 0
      = { wordIndex := ⟨0, by omega⟩, fontColorIndex := ⟨1, by omega⟩,
          nextPos := 2 } := by
    rw [generateRoundData_quick mod4 mod4_ok 0 (by decide)]
    decide
  simp only [step, startGame, startNewRound, initState]
  norm_num
  rw [hq]
  decide

/-! ### High-score persistence round trip -/

/-- Loading the canonical decimal encoding of `n` yields `n`. -/
theorem loadHighScore_natDecimal (n : Nat) :
    loadHighScore (some (String.mk (natDecimal n))) = some (n : Int) := by
  obtain ⟨_, _, d, rest, hd10, hsh⟩ := natDecimalAux_spec (n + 1) n (by omega)
  have hne : String.mk (natDecimal n) ≠ "" := by
    intro hcon
    have hdata : natDecimal n = [] := congrArg String.data hcon
    rw [show natDecimal n = natDecimalAux (n + 1) n from rfl, hsh] at hdata
    simp at hdata
  show (if String.mk (natDecimal n) = "" then some 0
      else jsParseInt (String.mk (natDecimal n))) = some (n : Int)
  rw [if_neg hne]
  exact jsParseInt_natDecimal n

/-! ### The claims -/

/-- The four palette entries are pairwise distinct strings. -/
theorem colorAt_inj : ∀ a b : Fin 4, a ≠ b → colorAt a ≠ colorAt b := by decide

/-- Claim C1: every round produced by `generateRoundData` satisfies
`fontColorIndex ≠ wordIndex` — the drawn word is never rendered in the font
color whose index equals the word index (the palette entries at the two
indices also differ) — and `startNewRound` installs the rendered font color
as the sole correct answer (`correctAnswer = currentFontColor`). -/
theorem generated_round_stroop_invariant (stream : Nat → Fin 4)
    (hst : StreamOK stream) (pos : Nat) (g : GameState)
    (hg : g.isPlaying = true) :
    (generateRoundData stream hst pos).fontColorIndex
        ≠ (generateRoundData stream hst pos).wordIndex ∧
    colorAt (generateRoundData stream hst pos).fontColorIndex
        ≠ colorAt (generateRoundData stream hst pos).wordIndex ∧
    (startNewRound stream hst g).correctAnswer
        = (startNewRound stream hst g).currentFontColor ∧
    (startNewRound stream hst g).currentFontColor
        = colorAt (generateRoundData stream hst g.randPos).fontColorIndex ∧
    (startNewRound stream hst g).currentWord
        = colorNameAt (generateRoundData stream hst g.randPos).wordIndex := by
  have hne : (generateRoundData stream hst pos).fontColorIndex
      ≠ (generateRoundData stream hst pos).wordIndex :=
    Nat.find_spec (hst (pos + 1) (stream pos))
  refine ⟨hne, colorAt_inj _ _ hne, ?_, ?_, ?_⟩ <;>
    simp [startNewRound, hg, startTimer]

theorem generated_round_stroop_invariant_witness :
    (generateRoundData mod4 mod4_ok 0).fontColorIndex
      ≠ (generateRoundData mod4 mod4_ok 0).wordIndex :=
  (generated_round_stroop_invariant mod4 mod4_ok 0 demoRound rfl).1

/-- Claim C2: in every reachable state the score is a (non-negative, being
a `Nat` — the code only assigns 0 and adds 10) multiple of 10; a correct
answer while playing adds exactly 10; and every event either leaves the
score unchanged, adds 10 (only a correct answer), or resets it to 0 (only
start, exit, menu, restart). -/
theorem score_spec (stream : Nat → Fin 4) (hst : StreamOK stream)
    (h0 : Int) (sv : Option String) (g : GameState)
    (hr : Reachable stream hst h0 sv g) :
    10 ∣ g.currentScore ∧
    (∀ c : Fin 4, g.isPlaying = true → colorAt c = g.correctAnswer →
      (step stream hst (Event.colorClick c) g).currentScore
        = g.currentScore + 10) ∧
    (∀ e : Event,
      (step stream hst e g).currentScore = g.currentScore ∨
      ((step stream hst e g).currentScore = g.currentScore + 10 ∧
        ∃ c : Fin 4, e = Event.colorClick c ∧ g.isPlaying = true ∧
          colorAt c = g.correctAnswer) ∨
      ((step stream hst e g).currentScore = 0 ∧
        (e = Event.startClick ∨ e = Event.exitClick ∨ e = Event.menuClick ∨
          e = Event.restartClick))) := by
  refine ⟨?_, ?_, fun e => step_score_cases stream hst e g⟩
  · induction hr with
    | init => simp [initState]
    | next e hprev ih =>
      rcases step_score_cases stream hst e _ with h | ⟨h, -⟩ | ⟨h, -⟩ <;>
        rw [h] <;> omega
  · intro c hp hc
    simp [step, handleColorClick, hp, hc, handleCorrectAnswer]

theorem score_spec_witness : 10 ∣ (initState 0 none).currentScore :=
  (score_spec mod4 mod4_ok 0 none (initState 0 none) Reachable.init).1

/-- Claim C3: `currentTimeLimit` starts at 3000 ms (both at construction and
on every start), stays within `[800, 3000]` in every reachable state, each
correct answer sets it to `max 800 (t - 100)` (hence non-increasing across
consecutive correct answers), and after 23 or more consecutive correct
answers it is exactly 800. -/
theorem timeLimit_spec (stream : Nat → Fin 4) (hst : StreamOK stream)
    (h0 : Int) (sv : Option String) (g : GameState)
    (hr : Reachable stream hst h0 sv g) :
    minTimeLimit = 800 ∧ timeDecrement = 100 ∧
    800 ≤ g.currentTimeLimit ∧ g.currentTimeLimit ≤ 3000 ∧
    (initState h0 sv).currentTimeLimit = 3000 ∧
    (∀ gAny : GameState,
      (step stream hst Event.startClick gAny).currentTimeLimit = 3000) ∧
    (∀ c : Fin 4, g.isPlaying = true → colorAt c = g.correctAnswer →
      (step stream hst (Event.colorClick c) g).currentTimeLimit
          = max minTimeLimit (g.currentTimeLimit - timeDecrement) ∧
      (step stream hst (Event.colorClick c) g).currentTimeLimit
          ≤ g.currentTimeLimit) ∧
    (∀ n : Nat, 23 ≤ n →
      (handleCorrectAnswer^[n] g).currentTimeLimit = 800) := by
  have hinv : 800 ≤ g.currentTimeLimit ∧ g.currentTimeLimit ≤ 3000 := by
    induction hr with
    | init => norm_num [initState]
    | next e hprev ih =>
      rcases step_limit_cases stream hst e _ with h | ⟨h, -⟩ | ⟨h, -⟩ <;>
        rw [h] <;> (try simp only [minTimeLimit, timeDecrement]) <;> omega
  refine ⟨rfl, rfl, hinv.1, hinv.2, by norm_num [initState], ?_, ?_, ?_⟩
  · intro gAny
    simp [step, startGame, startNewRound, startTimer]
  · intro c hp hc
    have h800 := hinv.1
    constructor
    · simp [step, handleColorClick, hp, hc, handleCorrectAnswer]
    · simp only [step, handleColorClick, hp, if_true, hc, if_pos,
        handleCorrectAnswer, minTimeLimit, timeDecrement]
      simp [hp, hc]
      omega
  · intro n hn
    rw [handleCorrectAnswer_iterate n g
      (by simp only [minTimeLimit]; exact hinv.1)]
    have h1 := hinv.1
    have h2 := hinv.2
    simp only [minTimeLimit, timeDecrement]
    omega

theorem timeLimit_spec_witness : 800 ≤ (initState 0 none).currentTimeLimit :=
  (timeLimit_spec mod4 mod4_ok 0 none (initState 0 none) Reachable.init).2.2.1

/-- Claim C4: `endGame` updates and persists the high score if and only if
the final score strictly exceeds the prior high score (so equality changes
nothing), the "new high score" flag is set exactly when an update occurred,
and no event dispatch ever lowers `highScore`. -/
theorem endGame_highScore_spec (stream : Nat → Fin 4) (hst : StreamOK stream)
    (g : GameState) :
    ((g.currentScore : Int) > g.highScore →
      (endGame g).highScore = (g.currentScore : Int) ∧
      (endGame g).storedValue = saveHighScore (g.currentScore : Int) ∧
      (endGame g).newHighScoreShown = true) ∧
    (¬ (g.currentScore : Int) > g.highScore →
      (endGame g).highScore = g.highScore ∧
      (endGame g).storedValue = g.storedValue ∧
      (endGame g).newHighScoreShown = false) ∧
    g.highScore ≤ (endGame g).highScore ∧
    ((endGame g).newHighScoreShown = true ↔
      (g.currentScore : Int) > g.highScore) ∧
    (∀ e : Event, g.highScore ≤ (step stream hst e g).highScore) := by
  by_cases hgt : (g.currentScore : Int) > g.highScore
  · refine ⟨fun _ => ?_, fun hh => absurd hgt hh, ?_, ?_,
      fun e => step_highScore_mono stream hst e g⟩
    · refine ⟨?_, ?_, ?_⟩ <;> simp [endGame, hgt]
    · simp only [endGame, if_pos hgt]
      omega
    · simp [endGame, hgt]
  · refine ⟨fun hh => absurd hh hgt, fun _ => ?_, ?_, ?_,
      fun e => step_highScore_mono stream hst e g⟩
    · refine ⟨?_, ?_, ?_⟩ <;> simp [endGame, hgt]
    · simp [endGame, hgt]
    · simp [endGame, hgt]

theorem endGame_highScore_spec_witness :
    (endGame demoScored).newHighScoreShown = true :=
  ((endGame_highScore_spec mod4 mod4_ok demoScored).1 (by decide)).2.2

/-- Claim C5 fails on the code: `handleColorClick` is guarded only by
`isPlaying`, which stays `true` during the post-resolution delay after a
correct answer, and keyboard input bypasses the disabled buttons.  In the
trace start, correct answer (blue), correct answer again during the 1000 ms
delay, the second submission is processed again: the score reaches 20, the
time limit drops twice, and a second next-round delay is scheduled, instead
of being a no-op as the claim states. -/
theorem submit_during_delay_not_noop :
    (step mod4 mod4_ok (Event.colorClick ⟨1, by omega⟩)
        (step mod4 mod4_ok Event.startClick (initState 0 none))).currentScore
      = 10 ∧
    (step mod4 mod4_ok (Event.colorClick ⟨1, by omega⟩)
        (step mod4 mod4_ok Event.startClick
          (initState 0 none))).pendingNextRound
      = [nextRoundDelay] ∧
    (step mod4 mod4_ok (Event.colorClick ⟨1, by omega⟩)
        (step mod4 mod4_ok (Event.colorClick ⟨1, by omega⟩)
          (step mod4 mod4_ok Event.startClick
            (initState 0 none)))).currentScore
      = 20 ∧
    (step mod4 mod4_ok (Event.colorClick ⟨1, by omega⟩)
        (step mod4 mod4_ok (Event.colorClick ⟨1, by omega⟩)
          (step mod4 mod4_ok Event.startClick
            (initState 0 none)))).currentTimeLimit
      = 2800 ∧
    (step mod4 mod4_ok (Event.colorClick ⟨1, by omega⟩)
        (step mod4 mod4_ok (Event.colorClick ⟨1, by omega⟩)
          (step mod4 mod4_ok Event.startClick
            (initState 0 none)))).pendingNextRound
      = [nextRoundDelay, nextRoundDelay] := by
  rw [demoStart_eq]
  decide

/-- Claim C6: a round timeout (`handleTimeUp`) has exactly the same state
effect as a wrong answer (`handleIncorrectAnswer`) — score and time limit
unchanged, `endGame` scheduled after the same fixed 1500 ms delay — and the
two differ only in the feedback message shown. -/
theorem timeout_matches_wrong_answer (g : GameState) :
    handleTimeUp g
        = { handleIncorrectAnswer g with feedbackMessage := "Time\x27s Up!" } ∧
    (handleTimeUp g).currentScore = g.currentScore ∧
    (handleTimeUp g).currentTimeLimit = g.currentTimeLimit ∧
    (handleTimeUp g).pendingEndGame = endGameDelay :: g.pendingEndGame ∧
    (handleIncorrectAnswer g).currentScore = g.currentScore ∧
    (handleIncorrectAnswer g).currentTimeLimit = g.currentTimeLimit ∧
    (handleIncorrectAnswer g).pendingEndGame
        = endGameDelay :: g.pendingEndGame ∧
    (handleTimeUp g).feedbackMessage = "Time\x27s Up!" ∧
    (handleIncorrectAnswer g).feedbackMessage = "Wrong!" ∧
    endGameDelay = 1500 :=
  ⟨rfl, rfl, rfl, rfl, rfl, rfl, rfl, rfl, rfl, rfl⟩

/-- Claim C8 fails on the code: `exitGame` does clear the tracked countdown,
reset the score to 0 and leave the playing state without touching the high
score, but the anonymous 1500 ms `endGame` delay scheduled by a wrong answer
is not cancellable and still fires after the exit, showing the game-over
screen instead of the state remaining Idle.  Trace: start, wrong answer
(red), exit during the delay, delay fires. -/
theorem exit_does_not_cancel_endgame_delay :
    (step mod4 mod4_ok Event.exitClick
        (step mod4 mod4_ok (Event.colorClick ⟨0, by omega⟩)
          (step mod4 mod4_ok Event.startClick (initState 0 none)))).isPlaying
      = false ∧
    (step mod4 mod4_ok Event.exitClick
        (step mod4 mod4_ok (Event.colorClick ⟨0, by omega⟩)
          (step mod4 mod4_ok Event.startClick
            (initState 0 none)))).currentScore
      = 0 ∧
    (step mod4 mod4_ok Event.exitClick
        (step mod4 mod4_ok (Event.colorClick ⟨0, by omega⟩)
          (step mod4 mod4_ok Event.startClick
            (initState 0 none)))).countdownPending
      = false ∧
    (step mod4 mod4_ok Event.exitClick
        (step mod4 mod4_ok (Event.colorClick ⟨0, by omega⟩)
          (step mod4 mod4_ok Event.startClick
            (initState 0 none)))).pendingEndGame
      = [endGameDelay] ∧
    (step mod4 mod4_ok Event.endGameFires
        (step mod4 mod4_ok Event.exitClick
          (step mod4 mod4_ok (Event.colorClick ⟨0, by omega⟩)
            (step mod4 mod4_ok Event.startClick
              (initState 0 none))))).gameOverVisible
      = true := by
  rw [demoStart_eq]
  decide

/-- Claim C9: the `do … while` rejection loop stops at the first redraw that
differs from the word index — whenever the draws at offsets `j < k` after
the word draw all collide and the draw at offset `k` differs, generation
uses exactly that draw and leaves the cursor just past it — and the result
depends only on the draws actually consumed (`generateRoundData` is a total
function of them).  The hypothesis that some later draw differs holds with
probability 1 for uniform draws over `N = 4 ≥ 2` colors. -/
theorem rejection_sampling_total (stream : Nat → Fin 4) (hst : StreamOK stream)
    (pos k : Nat)
    (hrej : ∀ j, j < k → stream (pos + 1 + j) = stream pos)
    (hacc : stream (pos + 1 + k) ≠ stream pos) :
    (generateRoundData stream hst pos).wordIndex = stream pos ∧
    (generateRoundData stream hst pos).fontColorIndex = stream (pos + 1 + k) ∧
    (generateRoundData stream hst pos).nextPos = pos + 2 + k ∧
    ∀ stream2 : Nat → Fin 4, ∀ hst2 : StreamOK stream2,
      (∀ i, i ≤ pos + 1 + k → stream2 i = stream i) →
      generateRoundData stream2 hst2 pos = generateRoundData stream hst pos := by
  have hk : Nat.find (hst (pos + 1) (stream pos)) = k := by
    rw [Nat.find_eq_iff]
    exact ⟨hacc, fun m hm hmne => hmne (hrej m hm)⟩
  refine ⟨rfl, ?_, ?_, ?_⟩
  · show stream (pos + 1 + Nat.find (hst (pos + 1) (stream pos)))
        = stream (pos + 1 + k)
    rw [hk]
  · show pos + 1 + Nat.find (hst (pos + 1) (stream pos)) + 1 = pos + 2 + k
    rw [hk]
    omega
  · intro stream2 hst2 hagree
    have hpos : stream2 pos = stream pos := hagree pos (by omega)
    have hk2 : Nat.find (hst2 (pos + 1) (stream2 pos)) = k := by
      rw [Nat.find_eq_iff]
      constructor
      · rw [hagree (pos + 1 + k) le_rfl, hpos]
        exact hacc
      · intro m hm hcon
        rw [hagree (pos + 1 + m) (by omega), hpos] at hcon
        exact hcon (hrej m hm)
    simp only [generateRoundData, hk, hk2]
    rw [hpos, hagree (pos + 1 + k) le_rfl]

theorem rejection_sampling_total_witness :
    (generateRoundData mod4 mod4_ok 0).wordIndex = mod4 0 ∧
    (generateRoundData mod4 mod4_ok 0).fontColorIndex = mod4 (0 + 1 + 0) ∧
    (generateRoundData mod4 mod4_ok 0).nextPos = 0 + 2 + 0 := by
  have h := rejection_sampling_total mod4 mod4_ok 0 0
    (fun j hj => absurd hj (by omega)) (by decide)
  exact ⟨h.1, h.2.1, h.2.2.1⟩

/-- Claim C10 counterexample: the for-all-n round trip fails at the exactly
representable value `10^21`: `toString` switches to exponential notation
there, producing `"1e+21"`, and `parseInt` reads only the leading digit
run, loading 1 instead of `10^21`. -/
theorem highScore_roundtrip_counterexample :
    saveHighScore (expThreshold : Int) = some "1e+21" ∧
    loadHighScore (saveHighScore (expThreshold : Int)) = some 1 ∧
    loadHighScore (saveHighScore (expThreshold : Int))
      ≠ some (expThreshold : Int) := by
  refine ⟨?_, ?_, ?_⟩ <;> decide

/-- Claim C10 amended: for every non-negative integer below `2^53` — the
range in which every integer is exactly representable as a JS number and
`toString` prints its exact decimal digits — saving the high score and
loading it back yields the value unchanged.  Beyond `1e21` the round trip
genuinely fails (see the counterexample); between `2^53` and `1e21` JS
arithmetic is on rounded doubles, outside this exact-integer model. -/
theorem highScore_roundtrip (n : Nat) (hn : n < 2 ^ 53) :
    loadHighScore (saveHighScore (n : Int)) = some (n : Int) := by
  have hexp : n < expThreshold := by
    have h2 : (2 : Nat) ^ 53 < expThreshold := by norm_num [expThreshold]
    omega
  have htn : ((n : Int)).toNat = n := by omega
  have h1 : saveHighScore (n : Int) = some (String.mk (natDecimal n)) := by
    unfold saveHighScore intToString natToString
    rw [if_neg (by omega : ¬ (n : Int) < 0), htn, if_pos hexp]
  rw [h1]
  exact loadHighScore_natDecimal n

theorem highScore_roundtrip_witness :
    loadHighScore (saveHighScore ((42 : Nat) : Int)) = some ((42 : Nat) : Int) :=
  highScore_roundtrip 42 (by norm_num)

end Stroop
